import Mathlib

/-!
Verification of the signal decision engine of the positioning-sentiment
dashboard: the threshold registry (frontend/src/utils/optimalThresholds.js),
the nearest-date resolver and threshold classifier
(frontend/src/components/StrategyDashboard.jsx), and the sentiment-price
reconciler plus decision arbiter (the SignalDisplay component).
-/

/-- Posture selected in the strategy dashboard (the strategy useState). -/
inductive Strategy where
  | long
  | short
deriving DecidableEq

/-- Price direction field of an ExternalSignal (signal.price_direction). -/
inductive PriceDirection where
  | up
  | down
  | neutral
deriving DecidableEq

/-- Sentiment label field of an ExternalSignal (signal.news_sentiment). -/
inductive SentimentLabel where
  | bullish
  | bearish
  | neutral
deriving DecidableEq

/-- Categorical trading recommendation. -/
inductive Decision where
  | buy
  | sell
  | hold
deriving DecidableEq

/-- Threshold record for one posture (the longThresholds or shortThresholds
useState of StrategyDashboard). -/
structure ThresholdSet where
  commercials : ℚ
  largeSpeculators : ℚ
  smallSpeculators : ℚ
deriving DecidableEq

/-- Per-index enable toggles (the indexEnabled useState). -/
structure IndexEnablement where
  commercials : Bool
  largeSpeculators : Bool
  smallSpeculators : Bool
deriving DecidableEq

/-- The three positioning index values of a resolved record; an absent
value is none (the indexValues memo of StrategyDashboard). -/
structure IndexValues where
  commercials : Option ℚ
  largeSpeculators : Option ℚ
  smallSpeculators : Option ℚ
deriving DecidableEq

/-- One row of the commodity data series; time is a timestamp (ms), the
three index columns may be absent. -/
structure DataRow where
  time : Int
  commercialsIndex : Option ℚ
  largeSpecIndex : Option ℚ
  smallSpecIndex : Option ℚ
deriving DecidableEq

/-- External signal fields consumed by the SignalDisplay component; the
signal field carries the upstream baseline agreement/reversal decision. -/
structure ExternalSignal where
  price_direction : PriceDirection
  news_sentiment : SentimentLabel
  news_count : Nat
  signal : Decision
deriving DecidableEq

/-- Tri-state verdict pair (the binarySignals state of CommodityDashboard). -/
structure BinaryVerdict where
  long : Option Bool
  short : Option Bool
deriving DecidableEq

/-- Embeds OPTIMAL_THRESHOLDS from frontend/src/utils/optimalThresholds.js:
per-commodity default threshold pairs (long defaults, short defaults). -/
def OPTIMAL_THRESHOLDS : String → Option (ThresholdSet × ThresholdSet)
  | "gold" => some (⟨85, 5, 10⟩, ⟨5, 95, 90⟩)
  | "coffee" => some (⟨85, 10, 10⟩, ⟨5, 95, 90⟩)
  | "ym" => some (⟨85, 5, 5⟩, ⟨5, 90, 95⟩)
  | "2yr_ZT" => some (⟨85, 5, 5⟩, ⟨5, 90, 90⟩)
  | "10yr_ZB" => some (⟨85, 5, 10⟩, ⟨5, 95, 90⟩)
  | "cattle" => some (⟨85, 10, 10⟩, ⟨5, 90, 95⟩)
  | "nq" => some (⟨85, 10, 10⟩, ⟨5, 90, 95⟩)
  | "silver" => some (⟨85, 10, 5⟩, ⟨10, 90, 90⟩)
  | "copper" => some (⟨85, 5, 5⟩, ⟨5, 95, 90⟩)
  | "es" => some (⟨85, 10, 10⟩, ⟨5, 90, 95⟩)
  | "30yr_UB" => some (⟨85, 10, 10⟩, ⟨5, 90, 90⟩)
  | "rty" => some (⟨85, 5, 10⟩, ⟨5, 90, 90⟩)
  | "yen" => some (⟨85, 5, 5⟩, ⟨5, 95, 95⟩)
  | "5yr_ZF" => some (⟨85, 10, 5⟩, ⟨5, 95, 95⟩)
  | "soybean_oil" => some (⟨95, 10, 10⟩, ⟨5, 90, 95⟩)
  | "nkd" => some (⟨85, 5, 10⟩, ⟨5, 95, 90⟩)
  | "cotton" => some (⟨85, 10, 5⟩, ⟨5, 95, 90⟩)
  | "dollar" => some (⟨85, 10, 10⟩, ⟨5, 95, 95⟩)
  | "sugar" => some (⟨85, 5, 5⟩, ⟨5, 95, 95⟩)
  | "euro" => some (⟨85, 5, 5⟩, ⟨5, 90, 90⟩)
  | "corn" => some (⟨95, 10, 10⟩, ⟨5, 90, 95⟩)
  | "cocoa" => some (⟨85, 10, 5⟩, ⟨5, 95, 95⟩)
  | _ => none

/-- Embeds getOptimalThresholds: the registry lookup, null for an unknown
commodity key. -/
def getOptimalThresholds (commodityKey : String) : Option (ThresholdSet × ThresholdSet) :=
  OPTIMAL_THRESHOLDS commodityKey

/-- Absolute distance of a row to the target time, as Math.abs of the
timestamp difference in selectedDateData. -/
def rowDist (targetTime : Int) (r : DataRow) : Nat :=
  (r.time - targetTime).natAbs

/-- One step of the closest-date scan in the selectedDateData memo of
StrategyDashboard.jsx. The accumulator holds (closest, minDiff); none
stands for the initial (null, Infinity) pair, and any finite diff beats
Infinity, so the first row always replaces it. The current best is
replaced only on a strictly smaller distance. -/
def scanStep (targetTime : Int) (acc : Option (DataRow × Nat)) (item : DataRow) :
    Option (DataRow × Nat) :=
  let diff := rowDist targetTime item
  match acc with
  | none => some (item, diff)
  | some (closest, minDiff) =>
      if diff < minDiff then some (item, diff) else some (closest, minDiff)

/-- Embeds the selectedDateData memo: null on an empty series, otherwise a
scan over all rows keeping the row with the smallest absolute time
distance, replacing only on a strictly smaller distance. -/
def selectedDateData (data : List DataRow) (targetTime : Int) : Option DataRow :=
  if data.isEmpty then none
  else (data.foldl (scanStep targetTime) none).map Prod.fst

/-- Embeds the indexValues memo: the three index columns of the resolved
row; an absent row gives all-null values. -/
def indexValues (selected : Option DataRow) : IndexValues :=
  match selected with
  | none => ⟨none, none, none⟩
  | some row => ⟨row.commercialsIndex, row.largeSpecIndex, row.smallSpecIndex⟩

/-- Embeds the binarySignal memo of StrategyDashboard.jsx: if any of the
three index values is null the verdict is null, before and regardless of
the enablement mask; otherwise the verdict for the chosen posture is the
conjunction of the three per-index checks, a disabled index passing
unconditionally. -/
def binarySignal (strategy : Strategy) (v : IndexValues) (indexEnabled : IndexEnablement)
    (longThresholds shortThresholds : ThresholdSet) : Option Bool :=
  match v.commercials, v.largeSpeculators, v.smallSpeculators with
  | some commercials, some largeSpecs, some smallSpecs =>
    match strategy with
    | .long =>
        let commercialsCheck :=
          !indexEnabled.commercials || decide (commercials > longThresholds.commercials)
        let largeSpecsCheck :=
          !indexEnabled.largeSpeculators || decide (largeSpecs < longThresholds.largeSpeculators)
        let smallSpecsCheck :=
          !indexEnabled.smallSpeculators || decide (smallSpecs < longThresholds.smallSpeculators)
        some (commercialsCheck && largeSpecsCheck && smallSpecsCheck)
    | .short =>
        let commercialsCheck :=
          !indexEnabled.commercials || decide (commercials < shortThresholds.commercials)
        let largeSpecsCheck :=
          !indexEnabled.largeSpeculators || decide (largeSpecs > shortThresholds.largeSpeculators)
        let smallSpecsCheck :=
          !indexEnabled.smallSpeculators || decide (smallSpecs > shortThresholds.smallSpeculators)
        some (commercialsCheck && largeSpecsCheck && smallSpecsCheck)
  | _, _, _ => none

/-- Index keys of a ThresholdSet, as the computed property names used by
handleThresholdChange. -/
inductive IndexKey where
  | commercials
  | largeSpeculators
  | smallSpeculators
deriving DecidableEq

/-- Record update spread { ...prev, [index]: value } on a ThresholdSet. -/
def setIndexValue (t : ThresholdSet) (i : IndexKey) (value : ℚ) : ThresholdSet :=
  match i with
  | .commercials => { t with commercials := value }
  | .largeSpeculators => { t with largeSpeculators := value }
  | .smallSpeculators => { t with smallSpeculators := value }

/-- Projection of a ThresholdSet at an index key. -/
def getIndexValue (t : ThresholdSet) (i : IndexKey) : ℚ :=
  match i with
  | .commercials => t.commercials
  | .largeSpeculators => t.largeSpeculators
  | .smallSpeculators => t.smallSpeculators

/-- Session threshold state: the longThresholds and shortThresholds
useState records of StrategyDashboard taken together. -/
structure SessionThresholds where
  longThresholds : ThresholdSet
  shortThresholds : ThresholdSet
deriving DecidableEq

/-- Embeds handleThresholdChange of StrategyDashboard.jsx. The manual text
entry is modelled after parsing as an Option: none stands for the NaN of
parseFloat on non-numeric text, and parseFloat(value) || 0 collapses it to
zero. Only the edited posture record is replaced, and only at the edited
index key. -/
def handleThresholdChange (st : SessionThresholds) (strategyType : Strategy)
    (index : IndexKey) (parsed : Option ℚ) : SessionThresholds :=
  let numValue : ℚ := match parsed with | none => 0 | some v => v
  match strategyType with
  | .long => { st with longThresholds := setIndexValue st.longThresholds index numValue }
  | .short => { st with shortThresholds := setIndexValue st.shortThresholds index numValue }

/-- Embeds the newsFailure check of the SignalDisplay component: price up
with bearish news, price down with bullish news, neutral price direction,
or no news articles. -/
def newsFailure (signal : ExternalSignal) : Bool :=
  (signal.price_direction == .up && signal.news_sentiment == .bearish) ||
  (signal.price_direction == .down && signal.news_sentiment == .bullish) ||
  signal.price_direction == .neutral ||
  signal.news_count == 0

/-- Embeds the rule-list core of the displaySignal memo of SignalDisplay:
the ordered first-match evaluation over the verdict pair and the news
failure flag, with a null verdict treated as not-true. -/
def arbiter (binarySignals : BinaryVerdict) (nf : Bool) : Decision :=
  let hasLongBinary := binarySignals.long == some true
  let hasShortBinary := binarySignals.short == some true
  if hasLongBinary && hasShortBinary then .buy
  else if nf && hasLongBinary then .buy
  else if nf && hasShortBinary then .sell
  else if !nf then .hold
  else if nf && !hasLongBinary && !hasShortBinary then .hold
  else .hold

/-- Embeds the displaySignal memo of SignalDisplay: when the binarySignals
object or the fetched signal is absent, fall back to the upstream baseline
field signal?.signal (or hold when that too is absent); otherwise run the
arbiter rule list on the verdict pair and the news failure flag. -/
def displaySignal (signal : Option ExternalSignal) (binarySignals : Option BinaryVerdict) :
    Decision :=
  match binarySignals, signal with
  | none, s => (s.map ExternalSignal.signal).getD .hold
  | some _, none => .hold
  | some bv, some s => arbiter bv (newsFailure s)

/-- Rule list of the Decision Arbiter exactly as the spec words it: ordered
first-match over (long, short, newsFailure); rules 1 to 3 and 5 treat the
tri-state unknown as not-true, rule 4 fires on no news failure, and a
final safety default yields hold. -/
def arbiterRuleList (bv : BinaryVerdict) (nf : Bool) : Decision :=
  if bv.long = some true ∧ bv.short = some true then .buy
  else if nf = true ∧ bv.long = some true then .buy
  else if nf = true ∧ bv.short = some true then .sell
  else if nf = false then .hold
  else if nf = true ∧ bv.long ≠ some true ∧ bv.short ≠ some true then .hold
  else .hold

/-- Rules 1 to 4 of the arbiter only, with hold as the remaining default. -/
def arbiterFourRules (bv : BinaryVerdict) (nf : Bool) : Decision :=
  let hasLongBinary := bv.long == some true
  let hasShortBinary := bv.short == some true
  if hasLongBinary && hasShortBinary then .buy
  else if nf && hasLongBinary then .buy
  else if nf && hasShortBinary then .sell
  else if !nf then .hold
  else .hold

/-- True when none of the five arbiter rules matches, so only the final
safety default could produce the output. -/
def arbiterDefaultReached (bv : BinaryVerdict) (nf : Bool) : Bool :=
  let hasLongBinary := bv.long == some true
  let hasShortBinary := bv.short == some true
  !(hasLongBinary && hasShortBinary) &&
  !(nf && hasLongBinary) &&
  !(nf && hasShortBinary) &&
  !(!nf) &&
  !(nf && !hasLongBinary && !hasShortBinary)

/-- Modelled from the spec: the StrategyDashboard variant wired to
CommodityDashboard through onBinarySignalsChange is absent from the
sources (only the caller passing the callback and holding the
binarySignals state is present). Per the spec the classifier is evaluated
independently for both postures on every input change, yielding a
BinaryVerdict with both tri-state fields. The currently selected posture
is carried as an argument to show the output does not depend on it. -/
def binarySignalsOf (_selected : Strategy) (v : IndexValues) (indexEnabled : IndexEnablement)
    (longThresholds shortThresholds : ThresholdSet) : BinaryVerdict :=
  { long := binarySignal .long v indexEnabled longThresholds shortThresholds
    short := binarySignal .short v indexEnabled longThresholds shortThresholds }

/-- Modelled from the spec: the commodity-change effect resetting session
thresholds to the Threshold Registry defaults is absent from the sources
(the registry getOptimalThresholds is present but unreferenced there). On
a commodity-key change with no session edit the active thresholds become
the registry defaults for that key; with a session edit, or for a key the
registry lacks, the current thresholds are kept. -/
def thresholdsOnCommodityChange (editedInSession : Bool) (commodityKey : String)
    (current : SessionThresholds) : SessionThresholds :=
  if editedInSession then current
  else
    match getOptimalThresholds commodityKey with
    | some (lo, sh) => ⟨lo, sh⟩
    | none => current

/-- Recursive characterisation of the closest-row scan: the head of the
list wins a tie against the best of the tail, matching the
strict-replacement loop of selectedDateData. -/
def firstClosest (targetTime : Int) : List DataRow → Option DataRow
  | [] => none
  | x :: xs =>
    match firstClosest targetTime xs with
    | none => some x
    | some y => if rowDist targetTime y < rowDist targetTime x then some y else some x

/-- The better of a candidate row and an optional challenger, the candidate
winning ties. -/
def pickBetter (targetTime : Int) (c : DataRow) (o : Option DataRow) : DataRow :=
  match o with
  | none => c
  | some y => if rowDist targetTime y < rowDist targetTime c then y else c

/-- Claim C1: the Decision Arbiter is a deterministic function of the
verdict pair and the news failure flag, evaluated as the ordered
first-match rule list of the spec with a null verdict treated as not-true,
and it sends (true, true, no failure) to buy, (unknown, true, failure) to
sell, (false, false, failure) to hold, and (true, false, no failure) to
hold. -/
theorem arbiter_rule_list_correct :
    (∀ (l s : Option Bool) (nf : Bool), arbiter ⟨l, s⟩ nf = arbiterRuleList ⟨l, s⟩ nf) ∧
    arbiter ⟨some true, some true⟩ false = .buy ∧
    arbiter ⟨none, some true⟩ true = .sell ∧
    arbiter ⟨some false, some false⟩ true = .hold ∧
    arbiter ⟨some true, some false⟩ false = .hold := by
  refine ⟨?_, rfl, rfl, rfl, rfl⟩
  decide

/-- Claim C2: with all three index values present the classifier verdict
for a posture is the conjunction of the three per-index comparisons, a
disabled index passing unconditionally; with any index value absent the
verdict is null regardless of the enablement mask and the posture. -/
theorem threshold_classifier_correct (e : IndexEnablement) (longT shortT : ThresholdSet) :
    (∀ c l s : ℚ,
      binarySignal .long ⟨some c, some l, some s⟩ e longT shortT =
        some ((if e.commercials then decide (c > longT.commercials) else true) &&
              (if e.largeSpeculators then decide (l < longT.largeSpeculators) else true) &&
              (if e.smallSpeculators then decide (s < longT.smallSpeculators) else true)) ∧
      binarySignal .short ⟨some c, some l, some s⟩ e longT shortT =
        some ((if e.commercials then decide (c < shortT.commercials) else true) &&
              (if e.largeSpeculators then decide (l > shortT.largeSpeculators) else true) &&
              (if e.smallSpeculators then decide (s > shortT.smallSpeculators) else true))) ∧
    (∀ (v : IndexValues) (strategy : Strategy),
      v.commercials = none ∨ v.largeSpeculators = none ∨ v.smallSpeculators = none →
      binarySignal strategy v e longT shortT = none) := by
  constructor
  · intro c l s
    obtain ⟨ec, el, es⟩ := e
    cases ec <;> cases el <;> cases es <;> exact ⟨rfl, rfl⟩
  · intro v strategy h
    obtain ⟨vc, vl, vs⟩ := v
    cases vc <;> cases vl <;> cases vs <;> cases strategy <;>
      first
      | rfl
      | simp_all

/-- Witness for claim C2 at a concrete record missing its commercials
index: the verdict is null even with every index enabled. -/
theorem threshold_classifier_correct_witness :
    binarySignal .long ⟨none, some 3, some 7⟩ ⟨true, true, true⟩ ⟨85, 5, 10⟩ ⟨5, 95, 90⟩ =
      none :=
  (threshold_classifier_correct ⟨true, true, true⟩ ⟨85, 5, 10⟩ ⟨5, 95, 90⟩).2
    ⟨none, some 3, some 7⟩ .long (Or.inl rfl)

/-- Claim C4: the news failure flag is true exactly when price up meets
bearish news, price down meets bullish news, the price direction is
neutral, or the article count is zero; in particular a zero article count
forces it for every direction and sentiment. -/
theorem news_failure_rule (s : ExternalSignal) :
    (newsFailure s = true ↔
      ((s.price_direction = .up ∧ s.news_sentiment = .bearish) ∨
       (s.price_direction = .down ∧ s.news_sentiment = .bullish) ∨
       s.price_direction = .neutral ∨
       s.news_count = 0)) ∧
    (s.news_count = 0 → newsFailure s = true) := by
  constructor
  · simp [newsFailure, Bool.or_eq_true, Bool.and_eq_true, beq_iff_eq, or_assoc]
  · intro h
    simp [newsFailure, h]

/-- Witness for claim C4: zero articles force a news failure even when
price up meets bullish news. -/
theorem news_failure_rule_witness :
    newsFailure ⟨.up, .bullish, 0, .buy⟩ = true :=
  (news_failure_rule ⟨.up, .bullish, 0, .buy⟩).2 rfl

/-- Claim C5: the classifier is evaluated independently for both postures,
yielding a verdict pair whose long and short fields are the classifier
outputs at the long and short posture respectively, independent of the
posture currently selected in the dashboard. -/
theorem classifier_both_postures (selected selectedOther : Strategy) (v : IndexValues)
    (e : IndexEnablement) (longT shortT : ThresholdSet) :
    (binarySignalsOf selected v e longT shortT).long = binarySignal .long v e longT shortT ∧
    (binarySignalsOf selected v e longT shortT).short = binarySignal .short v e longT shortT ∧
    binarySignalsOf selected v e longT shortT = binarySignalsOf selectedOther v e longT shortT :=
  ⟨rfl, rfl, rfl⟩

/-- Counterexample to claim C6: a verdict pair whose two tri-states are
both unknown (no positioning data at all) is still a present object, so
the arbiter path runs and displays hold, not the baseline buy carried in
the external signal. -/
theorem fallback_on_unknown_verdict_counterexample :
    (⟨none, none⟩ : BinaryVerdict).long = none ∧
    (⟨none, none⟩ : BinaryVerdict).short = none ∧
    (⟨.up, .bullish, 4, .buy⟩ : ExternalSignal).signal = .buy ∧
    displaySignal (some ⟨.up, .bullish, 4, .buy⟩) (some ⟨none, none⟩) = .hold ∧
    Decision.hold ≠ Decision.buy := by
  refine ⟨rfl, rfl, rfl, rfl, ?_⟩
  decide

/-- Claim C6 as amended: the displayed decision equals the upstream
baseline field exactly when the verdict-pair object itself is absent (and
hold when the external signal is absent); whenever a verdict-pair object
is present, even with both tri-states unknown, the arbiter rule list is
used, so the two classification paths stay distinct. -/
theorem fallback_only_without_verdict_object (s : ExternalSignal) (bv : BinaryVerdict) :
    displaySignal (some s) none = s.signal ∧
    displaySignal none none = .hold ∧
    displaySignal none (some bv) = .hold ∧
    displaySignal (some s) (some bv) = arbiter bv (newsFailure s) :=
  ⟨rfl, rfl, rfl, rfl⟩

/-- Claim C7: on a commodity change without session edits the active
thresholds become the registry defaults; for gold these are
(85, 5, 10) long and (5, 95, 90) short, and the record (90, 3, 7) with all
indices enabled yields a true long verdict under them. -/
theorem registry_defaults_on_commodity_change (current : SessionThresholds) :
    thresholdsOnCommodityChange false ("gold") current = ⟨⟨85, 5, 10⟩, ⟨5, 95, 90⟩⟩ ∧
    binarySignal .long ⟨some 90, some 3, some 7⟩ ⟨true, true, true⟩ ⟨85, 5, 10⟩ ⟨5, 95, 90⟩ =
      some true := by
  constructor
  · rfl
  · decide

/-- Claim C8: rule 5 of the arbiter is redundant, rules 1 to 4 with hold as
the remaining default produce the same output on every input, and the
final safety default after rule 5 is never reached. -/
theorem arbiter_rule_five_redundant :
    ∀ (l s : Option Bool) (nf : Bool),
      arbiter ⟨l, s⟩ nf = arbiterFourRules ⟨l, s⟩ nf ∧
      arbiterDefaultReached ⟨l, s⟩ nf = false := by
  decide

/-- Claim C9: a non-numeric manual threshold entry stores zero at the
edited index of the edited posture and leaves every other threshold of
both postures unchanged. -/
theorem invalid_threshold_coerced_to_zero (st : SessionThresholds) (i j : IndexKey) :
    getIndexValue (handleThresholdChange st .long i none).longThresholds i = 0 ∧
    (j ≠ i → getIndexValue (handleThresholdChange st .long i none).longThresholds j =
      getIndexValue st.longThresholds j) ∧
    (handleThresholdChange st .long i none).shortThresholds = st.shortThresholds ∧
    getIndexValue (handleThresholdChange st .short i none).shortThresholds i = 0 ∧
    (j ≠ i → getIndexValue (handleThresholdChange st .short i none).shortThresholds j =
      getIndexValue st.shortThresholds j) ∧
    (handleThresholdChange st .short i none).longThresholds = st.longThresholds := by
  cases i <;> cases j <;>
    simp [handleThresholdChange, setIndexValue, getIndexValue]

/-- Witness for claim C9: editing the long commercials threshold with
non-numeric text zeroes it and keeps the long large-speculators
threshold. -/
theorem invalid_threshold_coerced_to_zero_witness :
    IndexKey.largeSpeculators ≠ IndexKey.commercials ∧
    getIndexValue
      (handleThresholdChange ⟨⟨95, 5, 5⟩, ⟨5, 95, 95⟩⟩ .long .commercials none).longThresholds
      .largeSpeculators =
      getIndexValue (⟨⟨95, 5, 5⟩, ⟨5, 95, 95⟩⟩ : SessionThresholds).longThresholds
        .largeSpeculators :=
  ⟨by decide,
    (invalid_threshold_coerced_to_zero ⟨⟨95, 5, 5⟩, ⟨5, 95, 95⟩⟩ .commercials
      .largeSpeculators).2.1 (by decide)⟩

/-- Claim C10: the arbiter outputs sell only with a news failure and a
strictly true short verdict, outputs buy only with both verdicts strictly
true or a news failure with a strictly true long verdict, and without a
news failure it outputs hold unless both verdicts are strictly true. -/
theorem arbiter_sell_buy_only_if :
    ∀ (l s : Option Bool) (nf : Bool),
      (arbiter ⟨l, s⟩ nf = .sell → nf = true ∧ s = some true) ∧
      (arbiter ⟨l, s⟩ nf = .buy →
        (l = some true ∧ s = some true) ∨ (nf = true ∧ l = some true)) ∧
      (nf = false → ¬(l = some true ∧ s = some true) → arbiter ⟨l, s⟩ nf = .hold) := by
  decide

/-- Witness for claim C10: the sell output at the concrete input with an
unknown long verdict forces a news failure and a true short verdict. -/
theorem arbiter_sell_buy_only_if_witness :
    arbiter ⟨none, some true⟩ true = .sell ∧
    ((true : Bool) = true ∧ (some true : Option Bool) = some true) :=
  ⟨by decide, (arbiter_sell_buy_only_if none (some true) true).1 (by decide)⟩

/-- The winner of pickBetter is at most as far from the target as the
candidate. -/
theorem pickBetter_dist_le (t : Int) (c : DataRow) (o : Option DataRow) :
    rowDist t (pickBetter t c o) ≤ rowDist t c := by
  cases o with
  | none => exact le_refl _
  | some y =>
      by_cases h : rowDist t y < rowDist t c
      · simp only [pickBetter, if_pos h]
        exact le_of_lt h
      · simp only [pickBetter, if_neg h]
        exact le_refl _

/-- Unfolding of pickBetter at an absent challenger. -/
theorem pickBetter_none (t : Int) (c : DataRow) : pickBetter t c none = c := rfl

/-- Unfolding of pickBetter at a present challenger. -/
theorem pickBetter_some (t : Int) (c z : DataRow) :
    pickBetter t c (some z) = if rowDist t z < rowDist t c then z else c := rfl

/-- The winner of pickBetter is the candidate or the challenger. -/
theorem pickBetter_cases (t : Int) (c : DataRow) (o : Option DataRow) :
    pickBetter t c o = c ∨ ∃ y, o = some y ∧ pickBetter t c o = y := by
  cases o with
  | none => exact Or.inl rfl
  | some y =>
      by_cases h : rowDist t y < rowDist t c
      · exact Or.inr ⟨y, rfl, by simp only [pickBetter, if_pos h]⟩
      · exact Or.inl (by simp only [pickBetter, if_neg h])

/-- Unfolding of the first-closest scan on a nonempty list through
pickBetter. -/
theorem firstClosest_cons (t : Int) (x : DataRow) (xs : List DataRow) :
    firstClosest t (x :: xs) = some (pickBetter t x (firstClosest t xs)) := by
  cases hfm : firstClosest t xs with
  | none => simp only [firstClosest, hfm, pickBetter]
  | some y =>
      simp only [firstClosest, hfm, pickBetter]
      by_cases hc : rowDist t y < rowDist t x
      · rw [if_pos hc, if_pos hc]
      · rw [if_neg hc, if_neg hc]

/-- The first-closest scan yields nothing exactly on the empty list. -/
theorem firstClosest_eq_none (t : Int) (data : List DataRow) :
    firstClosest t data = none ↔ data = [] := by
  cases data with
  | nil => simp [firstClosest]
  | cons x xs =>
      rw [firstClosest_cons]
      simp

/-- The fold of the scan step from a concrete accumulator agrees with
pickBetter applied to the first-closest row of the remaining list. -/
theorem foldl_scanStep_some (t : Int) :
    ∀ (xs : List DataRow) (c : DataRow),
      xs.foldl (scanStep t) (some (c, rowDist t c)) =
        some (pickBetter t c (firstClosest t xs),
              rowDist t (pickBetter t c (firstClosest t xs))) := by
  intro xs
  induction xs with
  | nil =>
      intro c
      simp [firstClosest, pickBetter]
  | cons x xs ih =>
      intro c
      rw [List.foldl_cons]
      have hstep : scanStep t (some (c, rowDist t c)) x =
          if rowDist t x < rowDist t c then some (x, rowDist t x)
          else some (c, rowDist t c) := rfl
      rw [hstep, firstClosest_cons, pickBetter_some]
      by_cases h : rowDist t x < rowDist t c
      · have hlt : rowDist t (pickBetter t x (firstClosest t xs)) < rowDist t c :=
          lt_of_le_of_lt (pickBetter_dist_le t x (firstClosest t xs)) h
        rw [if_pos h, if_pos hlt, ih x]
      · have hgoal : pickBetter t c (firstClosest t xs) =
            if rowDist t (pickBetter t x (firstClosest t xs)) < rowDist t c then
              pickBetter t x (firstClosest t xs)
            else c := by
          cases hfm : firstClosest t xs with
          | none =>
              rw [pickBetter_none, pickBetter_none, if_neg h]
          | some y =>
              rw [pickBetter_some, pickBetter_some]
              by_cases hyx : rowDist t y < rowDist t x
              · rw [if_pos hyx]
              · rw [if_neg hyx, if_neg h]
                have h1 : ¬ rowDist t y < rowDist t c := by omega
                rw [if_neg h1]
        rw [if_neg h, ih c, hgoal]

/-- The scan of selectedDateData computes exactly the first-closest row. -/
theorem selectedDateData_eq_firstClosest (data : List DataRow) (t : Int) :
    selectedDateData data t = firstClosest t data := by
  cases data with
  | nil => rfl
  | cons x xs =>
      have h1 : selectedDateData (x :: xs) t =
          ((x :: xs).foldl (scanStep t) none).map Prod.fst := by
        simp [selectedDateData]
      rw [h1, List.foldl_cons]
      have h2 : scanStep t none x = some (x, rowDist t x) := rfl
      rw [h2, foldl_scanStep_some t xs x, firstClosest_cons]
      rfl

/-- The first-closest row belongs to the list. -/
theorem firstClosest_mem (t : Int) :
    ∀ (data : List DataRow) (r : DataRow), firstClosest t data = some r → r ∈ data := by
  intro data
  induction data with
  | nil =>
      intro r h
      simp [firstClosest] at h
  | cons x xs ih =>
      intro r h
      rw [firstClosest_cons] at h
      have hr : pickBetter t x (firstClosest t xs) = r := Option.some.inj h
      rcases pickBetter_cases t x (firstClosest t xs) with hc | ⟨y, hy, hc⟩
      · rw [hc] at hr
        rw [← hr]
        exact List.mem_cons_self x xs
      · rw [hc] at hr
        rw [← hr]
        exact List.mem_cons_of_mem x (ih y hy)

/-- No row of the list is strictly closer to the target than the
first-closest row. -/
theorem firstClosest_min (t : Int) :
    ∀ (data : List DataRow) (r : DataRow), firstClosest t data = some r →
      ∀ x ∈ data, rowDist t r ≤ rowDist t x := by
  intro data
  induction data with
  | nil =>
      intro r h
      simp [firstClosest] at h
  | cons x xs ih =>
      intro r h z hz
      rw [firstClosest_cons] at h
      have hr : pickBetter t x (firstClosest t xs) = r := Option.some.inj h
      rcases List.mem_cons.mp hz with hzx | hzxs
      · rw [← hr, hzx]
        exact pickBetter_dist_le t x (firstClosest t xs)
      · cases hfm : firstClosest t xs with
        | none =>
            have : xs = [] := (firstClosest_eq_none t xs).mp hfm
            rw [this] at hzxs
            simp at hzxs
        | some y =>
            have hyz : rowDist t y ≤ rowDist t z := ih y hfm z hzxs
            rw [hfm] at hr
            by_cases hc : rowDist t y < rowDist t x
            · rw [← hr]
              simp only [pickBetter, if_pos hc]
              exact hyz
            · rw [← hr]
              simp only [pickBetter, if_neg hc]
              omega

/-- With strictly ascending dates, any row equidistant with the
first-closest row is not earlier than it. -/
theorem firstClosest_tie (t : Int) :
    ∀ (data : List DataRow) (r : DataRow),
      data.Pairwise (fun a b => a.time < b.time) →
      firstClosest t data = some r →
      ∀ x ∈ data, rowDist t x = rowDist t r → r.time ≤ x.time := by
  intro data
  induction data with
  | nil =>
      intro r _ h
      simp [firstClosest] at h
  | cons x xs ih =>
      intro r hp h z hz heq
      rw [firstClosest_cons] at h
      have hr : pickBetter t x (firstClosest t xs) = r := Option.some.inj h
      rw [List.pairwise_cons] at hp
      obtain ⟨hhead, htail⟩ := hp
      cases hfm : firstClosest t xs with
      | none =>
          have hxs : xs = [] := (firstClosest_eq_none t xs).mp hfm
          subst hxs
          rw [hfm] at hr
          simp only [pickBetter] at hr
          subst hr
          rcases List.mem_cons.mp hz with hzx | hzxs
          · rw [hzx]
          · simp at hzxs
      | some y =>
          rw [hfm] at hr
          by_cases hc : rowDist t y < rowDist t x
          · have hry : r = y := by
              simp only [pickBetter, if_pos hc] at hr
              exact hr.symm
            subst hry
            rcases List.mem_cons.mp hz with hzx | hzxs
            · rw [hzx] at heq
              omega
            · exact ih r htail hfm z hzxs heq
          · have hrx : r = x := by
              simp only [pickBetter, if_neg hc] at hr
              exact hr.symm
            subst hrx
            rcases List.mem_cons.mp hz with hzx | hzxs
            · rw [hzx]
            · exact le_of_lt (hhead z hzxs)

/-- Claim C3: on a nonempty series the resolver returns exactly one row of
the series, no other row is strictly closer to the target, and under the
ascending-date invariant a tie goes to the earlier-dated row; on an empty
series it returns nothing. -/
theorem nearest_date_resolver_correct (data : List DataRow) (targetTime : Int)
    (hne : data ≠ []) :
    (∃ r, selectedDateData data targetTime = some r ∧ r ∈ data ∧
      (∀ x ∈ data, rowDist targetTime r ≤ rowDist targetTime x) ∧
      (data.Pairwise (fun a b => a.time < b.time) →
        ∀ x ∈ data, rowDist targetTime x = rowDist targetTime r → r.time ≤ x.time)) ∧
    selectedDateData ([] : List DataRow) targetTime = none := by
  refine ⟨?_, rfl⟩
  cases hdata : data with
  | nil => exact absurd hdata hne
  | cons x xs =>
      subst hdata
      refine ⟨pickBetter targetTime x (firstClosest targetTime xs), ?_, ?_, ?_, ?_⟩
      · rw [selectedDateData_eq_firstClosest, firstClosest_cons]
      · exact firstClosest_mem targetTime (x :: xs) _ (firstClosest_cons targetTime x xs)
      · exact firstClosest_min targetTime (x :: xs) _ (firstClosest_cons targetTime x xs)
      · intro hp z hz heq
        exact firstClosest_tie targetTime (x :: xs) _ hp
          (firstClosest_cons targetTime x xs) z hz heq

/-- Witness for claim C3 at a two-row store with the target exactly halfway
between the rows: the resolver settles the tie on the earlier row. -/
theorem nearest_date_resolver_correct_witness :
    ([⟨0, none, none, none⟩, ⟨10, none, none, none⟩] : List DataRow) ≠ [] ∧
    ((∃ r, selectedDateData [⟨0, none, none, none⟩, ⟨10, none, none, none⟩] 5 = some r ∧
      r ∈ ([⟨0, none, none, none⟩, ⟨10, none, none, none⟩] : List DataRow) ∧
      (∀ x ∈ ([⟨0, none, none, none⟩, ⟨10, none, none, none⟩] : List DataRow),
        rowDist 5 r ≤ rowDist 5 x) ∧
      (([⟨0, none, none, none⟩, ⟨10, none, none, none⟩] : List DataRow).Pairwise
          (fun a b => a.time < b.time) →
        ∀ x ∈ ([⟨0, none, none, none⟩, ⟨10, none, none, none⟩] : List DataRow),
          rowDist 5 x = rowDist 5 r → r.time ≤ x.time)) ∧
    selectedDateData ([] : List DataRow) 5 = none) :=
  ⟨by decide,
    nearest_date_resolver_correct [⟨0, none, none, none⟩, ⟨10, none, none, none⟩] 5
      (by decide)⟩
